import Mathlib

/-!
# Verification of the Canvas quiz CSV→HTML→PDF pipeline

Shallow embedding of the core modules of the repository
(`src/core/csv_parser.py`, `src/core/latex_converter.py`,
`src/core/html_generator.py`, `src/core/orchestrator.py`) and proofs /
refutations of the specified properties.

Conventions:
* Python strings are modelled as Lean `String` / `List Char`; ASCII behaviour
  is modelled (the inputs of interest are ASCII).
* CSV cells are `Option String`: `none` models a missing value (pandas `NaN`,
  for which `pd.notna` is false); `some s` models a present string cell.
* Python dicts keyed by strings are modelled as association lists in
  insertion order; `dictInsert` reproduces dict update semantics (an existing
  key keeps its position and gets the new value).
-/

namespace Quiz

/-! ## Python string primitives -/

/-- ASCII whitespace, the characters removed by Python's `str.strip()` and
matched by `\s` for ASCII input. -/
def isPySpace (c : Char) : Bool :=
  c = ' ' || c = '\t' || c = '\n' || c = '\r' || c = '\x0b' || c = '\x0c'

/-- Python `str.strip()` on a character list. -/
def stripWs (cs : List Char) : List Char :=
  ((cs.dropWhile isPySpace).reverse.dropWhile isPySpace).reverse

/-- Python `str.strip()` on a string. -/
def pyStrip (s : String) : String := String.mk (stripWs s.toList)

/-- Truthiness of `str(x).strip()` in Python: `true` iff some non-whitespace
character is present. -/
def nonBlank (s : String) : Bool := !(stripWs s.toList).isEmpty

/-- Python `str.lower()` (ASCII; the inputs modelled are ASCII). -/
def lowerStr (s : String) : String := String.mk (s.toList.map Char.toLower)

/-- Python `str.upper()` (ASCII). -/
def upperStr (s : String) : String := String.mk (s.toList.map Char.toUpper)

/-- `needle` occurs as a contiguous substring of the character list
(Python's `needle in hay`). -/
def containsSubL (needle : List Char) : List Char → Bool
  | [] => needle.isEmpty
  | c :: rest => needle.isPrefixOf (c :: rest) || containsSubL needle rest

/-- Python's substring test `needle in hay`. -/
def containsSub (hay needle : String) : Bool := containsSubL needle.toList hay.toList

/-- Python `s.startswith(p)`. -/
def startsWithStr (s p : String) : Bool := p.toList.isPrefixOf s.toList

/-- Replacement scan for `pyReplace`; `fuel` only forces termination and is
always at least the length of the scanned list. -/
def replaceGo (old new : List Char) : Nat → List Char → List Char
  | 0, cs => cs
  | fuel + 1, cs =>
      match cs with
      | [] => []
      | c :: rest =>
          if old.isPrefixOf cs && !old.isEmpty then
            new ++ replaceGo old new fuel (cs.drop old.length)
          else c :: replaceGo old new fuel rest

/-- Python `s.replace(old, new)` for non-empty `old` (the only form the code
uses): replace every non-overlapping occurrence, left to right. -/
def pyReplace (s old new : String) : String :=
  String.mk (replaceGo old.toList new.toList s.toList.length s.toList)

/-- Insert into a string-keyed dict modelled as an association list:
an existing key keeps its position and is remapped, a new key is appended
(CPython dict update semantics). -/
def dictInsert (d : List (String × Nat)) (k : String) (v : Nat) : List (String × Nat) :=
  match d with
  | [] => [(k, v)]
  | (k', v') :: rest => if k' = k then (k, v) :: rest else (k', v') :: dictInsert rest k v

/-! ## CSV parser (`src/core/csv_parser.py`) -/

/-- One question-group configuration (`configs.example/quiz_config_template.py`):
the fields consumed by `csv_parser.py` and `orchestrator.py`. -/
structure GroupConfig where
  id : String
  name : String
  variant_tags : List String
  num_parts : Nat
deriving DecidableEq, Repr

/-- The `re.match(r'^(\d+\.\d+)', col_text)` step of `_find_variant_columns`
applied to one header cell, including the preceding `str(col_name).strip()`:
a tag is extracted only when a `digits '.' digits` pattern starts the stripped
header text; otherwise the cell is untagged (`none`). -/
def extractTag (header : String) : Option String :=
  let cs := stripWs header.toList
  let d1 := cs.takeWhile Char.isDigit
  let r1 := cs.dropWhile Char.isDigit
  if d1.isEmpty then none
  else
    match r1 with
    | '.' :: r2 =>
        let d2 := r2.takeWhile Char.isDigit
        if d2.isEmpty then none else some (String.mk (d1 ++ '.' :: d2))
    | _ => none

/-- `CanvasCSVParser._find_variant_columns`: scan the header row in column
order and record `tag ↦ column index` for every cell from which a tag is
extracted. -/
def find_variant_columns (headers : List String) : List (String × Nat) :=
  (headers.enum).foldl
    (fun d p =>
      match extractTag p.2 with
      | some tag => dictInsert d tag p.1
      | none => d)
    []

/-- `CanvasCSVParser._find_shared_subpart_columns`: locate the shared
part-B/part-C columns by lower-cased header text (substring tests for `q1_b`,
fixed text prefixes for `q2_b` / `q2_c`). -/
def find_shared_subpart_columns (headers : List String) : List (String × Nat) :=
  (headers.enum).foldl
    (fun d p =>
      let t := pyStrip (lowerStr p.2)
      let d1 :=
        if containsSub t "partition" && containsSub t "minimum" && containsSub t "cut"
        then dictInsert d "q1_b" p.1 else d
      if startsWithStr t "part b:" then dictInsert d1 "q2_b" p.1
      else if startsWithStr t "part c:" then dictInsert d1 "q2_c" p.1
      else d1)
    []

/-- `CanvasCSVParser._map_tag_to_group`: first group whose tag list contains
the tag, together with the 1-based position of the tag in that list. -/
def map_tag_to_group : List GroupConfig → String → Option (String × Nat)
  | [], _ => none
  | g :: gs, tag =>
    if g.variant_tags.contains tag
    then some (g.id, g.variant_tags.indexOf tag + 1)
    else map_tag_to_group gs tag

/-- The status test of `_find_student_variant`:
`pd.notna(status) and str(status) not in ['Not Attempted', 'Not Shown']`. -/
def statusOk : Option String → Bool
  | none => false
  | some s => !(s = "Not Attempted" || s = "Not Shown")

/-- A student row: one `Option String` cell per column (`none` = pandas NaN). -/
abbrev Row := List (Option String)

/-- `CanvasCSVParser._find_student_variant`: walk the variant-column dict in
its insertion (= CSV column) order; for each tag mapped to the requested
group, inspect the status cell two columns to the right (when in range) and
return the first tag whose status is present and not a sentinel. -/
def find_student_variant (groups : List GroupConfig) :
    List (String × Nat) → Row → String → Option String
  | [], _, _ => none
  | (tag, colIdx) :: rest, row, groupId =>
    match map_tag_to_group groups tag with
    | none => find_student_variant groups rest row groupId
    | some (gid, _) =>
      if gid = groupId then
        if colIdx + 2 < row.length then
          if statusOk (row.getD (colIdx + 2) none) then some tag
          else find_student_variant groups rest row groupId
        else find_student_variant groups rest row groupId
      else find_student_variant groups rest row groupId

/-- One subpart's contribution in `_extract_subpart_answers`: the entry is
present iff the column is configured and its cell is present (`pd.notna`)
and non-blank after `strip()`. -/
def partEntry (row : Row) (c : Option Nat) (letter : String) : List (String × String) :=
  match c with
  | some colIdx =>
      match row.getD colIdx none with
      | some s => if nonBlank s then [(letter, s)] else []
      | none => []
  | none => []

/-- The value a subpart's column contributes to the answers mapping:
the cell content when the column is configured and the cell is present and
non-blank, absent otherwise.  (`partEntry` wraps this value in a singleton
association list.) -/
def subpartValue (row : Row) (c : Option Nat) : Option String :=
  match c with
  | some colIdx =>
      match row.getD colIdx none with
      | some s => if nonBlank s then some s else none
      | none => none
  | none => none

/-- `CanvasCSVParser._extract_subpart_answers`: part "a" from the tagged
column, parts "b"/"c" from the group's shared columns.
(Column indices are assumed in range, as in the source, which would raise
otherwise.) -/
def extract_subpart_answers (variantColumns sharedColumns : List (String × Nat))
    (row : Row) (tag : String) (groupId : String) : List (String × String) :=
  partEntry row (variantColumns.lookup tag) "a"
    ++ partEntry row (sharedColumns.lookup (groupId ++ "_b")) "b"
    ++ partEntry row (sharedColumns.lookup (groupId ++ "_c")) "c"

/-- One student's record for one question group, as built by
`get_student_data` (`variant` is the 1-based position of `tag` in the
group's tag list). -/
structure GroupRec where
  variant : Nat
  tag : String
  answers : List (String × String)
deriving DecidableEq, Repr

/-- The per-group body of `CanvasCSVParser.get_student_data`: find the
variant tag; on success record its 1-based index and the extracted subpart
answers; on failure fall back to variant 1 with empty answers.  (The inner
`map_tag_to_group` cannot fail for a tag returned by
`find_student_variant`; the `none` branch mirrors Python, where the group
record would simply be left absent.) -/
def studentGroupRecord (groups : List GroupConfig)
    (variantColumns sharedColumns : List (String × Nat))
    (row : Row) (g : GroupConfig) : Option GroupRec :=
  match find_student_variant groups variantColumns row g.id with
  | some tag =>
    match map_tag_to_group groups tag with
    | some (_, variantNum) =>
        some ⟨variantNum, tag, extract_subpart_answers variantColumns sharedColumns row tag g.id⟩
    | none => none
  | none => some ⟨1, g.variant_tags.headD "", []⟩

/-- Modelled from the spec: the variant scan in *tag-list order*
("scan the group's candidate tagged columns in tag-list order; the first
column whose paired status field is present and not equal to a
sentinel value is the variant the student received").  Stated from the
spec's words, for comparison with `find_student_variant`, which scans in
CSV column order. -/
def find_student_variant_tag_order (groups : List GroupConfig)
    (variantColumns : List (String × Nat)) (row : Row) (groupId : String) :
    Option String :=
  match groups.find? (fun g => g.id == groupId) with
  | none => none
  | some g =>
      (g.variant_tags.filter (fun t =>
        match variantColumns.lookup t with
        | some c => decide (c + 2 < row.length) && statusOk (row.getD (c + 2) none)
        | none => false)).head?

/-! ## LaTeX marker conversion (`src/core/latex_converter.py`,
`convert_latex_in_html`) -/

/-- The fixed stop-word list of `convert_latex_in_html`. -/
def stopWords : List String :=
  ["with", "to", "from", "of", "as", "which", "where", "and", "the",
   "is", "in", "that", "for", "if", "on"]

/-- `re.match(r'\s+(with|...|on)\s', text[i:], re.IGNORECASE)` succeeds:
one or more whitespace characters, a stop-word (case-insensitively), then a
whitespace character. -/
def stopWordAt (cs : List Char) : Bool :=
  let ws := cs.takeWhile isPySpace
  if ws.isEmpty then false
  else
    let rest := (cs.dropWhile isPySpace).map Char.toLower
    stopWords.any (fun w =>
      w.toList.isPrefixOf rest &&
      match rest.drop w.toList.length with
      | c :: _ => isPySpace c
      | [] => false)

/-- The expression-consuming loop of `convert_latex_in_html`: starting right
after a `LaTeX:` marker, consume characters tracking `\left`/`\right`
nesting depth, stopping at an HTML tag start or a stop-word boundary when
unnested, or after a `\right` that closes all nesting and is followed by a
space/newline/tab.  Returns the consumed expression and the number of
characters consumed (Python's final `i`). -/
def scanExpr : List Char → Int → List Char × Nat
  | '\\' :: 'l' :: 'e' :: 'f' :: 't' :: r, depth =>
      let (e, n) := scanExpr r (depth + 1)
      ('\\' :: 'l' :: 'e' :: 'f' :: 't' :: e, n + 5)
  | '\\' :: 'r' :: 'i' :: 'g' :: 'h' :: 't' :: r, depth =>
      if depth - 1 > 0 then
        let (e, n) := scanExpr r (depth - 1)
        ('\\' :: 'r' :: 'i' :: 'g' :: 'h' :: 't' :: e, n + 6)
      else
        match r with
        | c2 :: _ =>
          if c2 = ' ' || c2 = '\n' || c2 = '\t' then ("\\right".toList, 6)
          else
            let (e, n) := scanExpr r (depth - 1)
            ('\\' :: 'r' :: 'i' :: 'g' :: 'h' :: 't' :: e, n + 6)
        | [] => ("\\right".toList, 6)
  | c :: rest, depth =>
      if depth = 0 && c = '<' then ([], 0)
      else if depth = 0 && stopWordAt (c :: rest) then ([], 0)
      else
        let (e, n) := scanExpr rest depth
        (c :: e, n + 1)
  | [], _ => ([], 0)

/-- All matches of `re.finditer(r'LaTeX:\s*', html)` as `(start, end)`
index pairs (`end` includes the greedily consumed whitespace). -/
def findMarkers : List Char → Nat → List (Nat × Nat)
  | 'L' :: 'a' :: 'T' :: 'e' :: 'X' :: ':' :: r, pos =>
      let wsLen := (r.takeWhile isPySpace).length
      (pos, pos + 6 + wsLen) :: findMarkers r (pos + 6)
  | _ :: rest, pos => findMarkers rest (pos + 1)
  | [], _ => []

/-- Python slice `cs[a:b]` for `0 ≤ a, b` (clamped, empty when `b ≤ a`). -/
def pySlice (cs : List Char) (a b : Nat) : List Char := (cs.drop a).take (b - a)

/-- Python `expr.rstrip(',.;:')`. -/
def rstripPunct (cs : List Char) : List Char :=
  (cs.reverse.dropWhile (fun c => c = ',' || c = '.' || c = ';' || c = ':')).reverse

/-- The assembly loop of `convert_latex_in_html`: for each marker match,
emit the text since `last_end`, scan and wrap the following expression in
`\( … \)`, and advance `last_end` past the consumed expression. -/
def convertGo (html : List Char) : List (Nat × Nat) → Nat → List Char
  | [], lastEnd => html.drop lastEnd
  | (s, e) :: ms, lastEnd =>
      let pre := pySlice html lastEnd s
      let (expr, i) := scanExpr (html.drop e) 0
      let cleaned := rstripPunct (stripWs expr)
      pre ++ '\\' :: '(' :: (cleaned ++ '\\' :: ')' :: convertGo html ms (e + i))

/-- `convert_latex_in_html` from `src/core/latex_converter.py`. -/
def convert_latex_in_html (html : String) : String :=
  String.mk (convertGo html.toList (findMarkers html.toList 0) 0)

/-! ## HTML documents (the BeautifulSoup tree)

`html_generator.py` and `convert_canvas_equation_images` manipulate parsed
HTML through BeautifulSoup.  A parsed document is a forest of element and
text nodes; the BeautifulSoup operations used by the code (`find_all`,
`find`, `extract`, `append`, `insert`, `replace_with`, `str(soup)`) are
modelled as pure functions on that forest. -/

inductive HNode where
  | elem (tag : String) (attrs : List (String × String)) (children : List HNode)
  | text (s : String)
deriving Repr

/-- Whitespace word-splitting scan (accumulator holds the current word,
reversed). -/
def wordsGo : List Char → List Char → List String
  | [], acc => if acc.isEmpty then [] else [String.mk acc.reverse]
  | c :: rest, acc =>
      if isPySpace c then
        if acc.isEmpty then wordsGo rest [] else String.mk acc.reverse :: wordsGo rest []
      else wordsGo rest (c :: acc)

/-- Whitespace-splitting of an attribute value into class tokens
(BeautifulSoup treats `class` as a multi-valued attribute). -/
def classTokens (s : String) : List String := wordsGo s.toList []

/-- Does `find_all(tagName, class_=cls)` match an element with this tag and
attribute list? -/
def tagClassMatch (tagName cls : String) (tag : String) (attrs : List (String × String)) :
    Bool :=
  tag == tagName && (classTokens ((attrs.lookup "class").getD "")).contains cls

/-- `find_all('div', class_='question-version')` membership test. -/
def isQV (tag : String) (attrs : List (String × String)) : Bool :=
  tagClassMatch "div" "question-version" tag attrs

/-- `div.get('data-version', '')`. -/
def getVersion : HNode → String
  | .elem _ a _ => (a.lookup "data-version").getD ""
  | .text _ => ""

mutual

/-- The `find_all('div', class_='question-version')` hits contributed by a
single node (the node itself first, then its descendants: document order). -/
def findAllQVN : HNode → List HNode
  | .text _ => []
  | .elem t a cs => (if isQV t a then [HNode.elem t a cs] else []) ++ findAllQV cs

/-- `soup.find_all('div', class_='question-version')` in document
(pre-)order. -/
def findAllQV : List HNode → List HNode
  | [] => []
  | n :: ns => findAllQVN n ++ findAllQV ns

end

mutual

/-- `removeQVL` on a single node: the node disappears when it is itself a
question-version div, else survives with its subtree cleaned. -/
def removeQVN : HNode → List HNode
  | .text s => [HNode.text s]
  | .elem t a cs => if isQV t a then [] else [HNode.elem t a (removeQVL cs)]

/-- The effect on the tree of calling `extract()` on every element of
`find_all('div', class_='question-version')`: every question-version div
(nested ones included) disappears from the forest. -/
def removeQVL : List HNode → List HNode
  | [] => []
  | n :: ns => removeQVN n ++ removeQVL ns

end

/-- The kept div after the extraction loop: question-version divs nested
below `variant_to_keep` were themselves extracted from its subtree. -/
def stripInner : HNode → HNode
  | .elem t a cs => .elem t a (removeQVL cs)
  | .text s => .text s

mutual

/-- `modifyBodyL` on a single node: `some` when the first `<body>` was
found (and rewritten) inside this node. -/
def modifyBodyN (f : List HNode → List HNode) : HNode → Option HNode
  | .text _ => none
  | .elem t a cs =>
      if t == "body" then some (.elem t a (f cs))
      else
        match modifyBodyL f cs with
        | some cs' => some (.elem t a cs')
        | none => none

/-- Rewrite the children of the first `<body>` element in document order
(`soup.body` / `soup.find('body')`); `none` when no body exists. -/
def modifyBodyL (f : List HNode → List HNode) : List HNode → Option (List HNode)
  | [] => none
  | n :: ns =>
      match modifyBodyN f n with
      | some n' => some (n' :: ns)
      | none => (modifyBodyL f ns).map (n :: ·)

end

mutual

/-- `bodyChildren` on a single node. -/
def bodyChildrenN : HNode → Option (List HNode)
  | .text _ => none
  | .elem t _ cs => if t == "body" then some cs else bodyChildren cs

/-- Children of the first `<body>` element in document order. -/
def bodyChildren : List HNode → Option (List HNode)
  | [] => none
  | n :: ns =>
      match bodyChildrenN n with
      | some r => some r
      | none => bodyChildren ns

end

/-- Is this node itself a question-version div? -/
def isQVNode : HNode → Bool
  | .elem t a _ => isQV t a
  | .text _ => false

/-- `hide_other_variants` at the document level: collect the
question-version divs, keep the first whose `data-version` equals
`str(variant_to_show)`, extract all of them, and re-append the kept one to
`soup.body` when a body remains (bs4 `Tag.__bool__` is constantly true, so
the `if variant_to_keep and soup.body` test is the two `Option` checks). -/
def hideTree (doc : List HNode) (variantToShow : Nat) : List HNode :=
  let kept? := (findAllQV doc).find? (fun n => getVersion n == toString variantToShow)
  let doc' := removeQVL doc
  match kept? with
  | some k =>
      match modifyBodyL (fun cs => cs ++ [stripInner k]) doc' with
      | some d => d
      | none => doc'
  | none => doc'

/-! ### Parsing and serialising (`BeautifulSoup(html, 'html.parser')`,
`str(soup)`)

The parser models Python's `html.parser` on the well-formed, entity-free
documents this pipeline produces and consumes (lower-case tags,
double-quoted attributes); the serializer models `str(soup)` with the
default `minimal` formatter (`&`, `<`, `>` escaped in text, `&`, `"` in
attribute values, attribute order as stored). -/

/-- HTML void elements (no closing tag; serialised self-closing by bs4). -/
def voidTags : List String :=
  ["area", "base", "br", "col", "embed", "hr", "img", "input", "link",
   "meta", "param", "source", "track", "wbr"]

def escapeTextChar (c : Char) : List Char :=
  if c = '&' then "&amp;".toList
  else if c = '<' then "&lt;".toList
  else if c = '>' then "&gt;".toList
  else [c]

def escapeTextL : List Char → List Char
  | [] => []
  | c :: r => escapeTextChar c ++ escapeTextL r

def escapeAttrChar (c : Char) : List Char :=
  if c = '&' then "&amp;".toList
  else if c = '"' then "&quot;".toList
  else [c]

def escapeAttrL : List Char → List Char
  | [] => []
  | c :: r => escapeAttrChar c ++ escapeAttrL r

def attrsStr (a : List (String × String)) : String :=
  a.foldl (fun acc p => acc ++ " " ++ p.1 ++ "=\"" ++ String.mk (escapeAttrL p.2.toList) ++ "\"") ""

mutual

def serializeN : HNode → String
  | .text s => String.mk (escapeTextL s.toList)
  | .elem t a cs =>
      if voidTags.contains t then "<" ++ t ++ attrsStr a ++ "/>"
      else "<" ++ t ++ attrsStr a ++ ">" ++ serializeL cs ++ "</" ++ t ++ ">"

def serializeL : List HNode → String
  | [] => ""
  | n :: ns => serializeN n ++ serializeL ns

end

/-- Characters allowed in tag and attribute names by the modelled parser. -/
def isNameChar (c : Char) : Bool := c.isAlphanum || c = '-' || c = '_'

/-- Parse the attribute part of a start tag: `name="value"` pairs separated
by whitespace, until `>` or `/>`.  Names are lower-cased as `html.parser`
does. -/
def parseAttrs : Nat → List Char → List (String × String) × List Char
  | 0, cs => ([], cs)
  | fuel + 1, cs =>
    let cs := cs.dropWhile isPySpace
    match cs with
    | [] => ([], [])
    | '>' :: _ => ([], cs)
    | '/' :: _ => ([], cs)
    | _ =>
      let nm := cs.takeWhile isNameChar
      let r1 := cs.dropWhile isNameChar
      if nm.isEmpty then ([], cs)
      else
        match r1 with
        | '=' :: '"' :: r2 =>
            let v := r2.takeWhile (· ≠ '"')
            let r3 := (r2.dropWhile (· ≠ '"')).drop 1
            let (as, rest) := parseAttrs fuel r3
            ((lowerStr (String.mk nm), String.mk v) :: as, rest)
        | _ =>
            let (as, rest) := parseAttrs fuel r1
            ((lowerStr (String.mk nm), "") :: as, rest)

/-- Tokens of the modelled `html.parser`. -/
inductive Tok where
  | tagOpen (tag : String) (attrs : List (String × String)) (selfClosing : Bool)
  | tagClose (tag : String)
  | textTok (s : String)
deriving Repr

/-- Tokenise an HTML string: start tags, end tags and text runs. -/
def tokenize : Nat → List Char → List Tok
  | 0, _ => []
  | _, [] => []
  | fuel + 1, c :: cs =>
    if c = '<' then
      match cs with
      | '/' :: r1 =>
          let nm := r1.takeWhile isNameChar
          let r2 := ((r1.dropWhile isNameChar).dropWhile (· ≠ '>')).drop 1
          .tagClose (lowerStr (String.mk nm)) :: tokenize fuel r2
      | r =>
          let nm := r.takeWhile isNameChar
          if nm.isEmpty then
            -- stray '<': treated as text up to the next tag start
            let t := r.takeWhile (· ≠ '<')
            .textTok (String.mk ('<' :: t)) :: tokenize fuel (r.dropWhile (· ≠ '<'))
          else
            let r1 := r.dropWhile isNameChar
            let (as, r2) := parseAttrs (r1.length + 1) r1
            match r2 with
            | '/' :: '>' :: r3 => .tagOpen (lowerStr (String.mk nm)) as true :: tokenize fuel r3
            | '>' :: r3 => .tagOpen (lowerStr (String.mk nm)) as false :: tokenize fuel r3
            | r3 => .tagOpen (lowerStr (String.mk nm)) as false ::
                      tokenize fuel ((r3.dropWhile (· ≠ '>')).drop 1)
    else
      let t := (c :: cs).takeWhile (· ≠ '<')
      .textTok (String.mk t) :: tokenize fuel ((c :: cs).dropWhile (· ≠ '<'))

/-- Build the node forest from the token stream.  A close tag ends the
current sibling run; the element builder consumes its own matching close
tag.  Void elements take no children. -/
def buildNodes : Nat → List Tok → List HNode × List Tok
  | 0, ts => ([], ts)
  | _, [] => ([], [])
  | fuel + 1, t :: ts =>
    match t with
    | .textTok s =>
        let (ns, rest) := buildNodes fuel ts
        (.text s :: ns, rest)
    | .tagClose nm => ([], .tagClose nm :: ts)
    | .tagOpen nm as sc =>
        if sc || voidTags.contains nm then
          let (ns, rest) := buildNodes fuel ts
          (.elem nm as [] :: ns, rest)
        else
          let (cs, rest) := buildNodes fuel ts
          let rest' :=
            match rest with
            | .tagClose nm' :: r => if nm' == nm then r else rest
            | _ => rest
          let (ns, rest'') := buildNodes fuel rest'
          (.elem nm as cs :: ns, rest'')

/-- `BeautifulSoup(html, 'html.parser')` on the documents this pipeline
handles. -/
def parseHtml (s : String) : List HNode :=
  let toks := tokenize (s.toList.length + 1) s.toList
  (buildNodes (toks.length + 1) toks).1

/-! ## Equation images and the sanitizer
(`src/core/latex_converter.py`) -/

mutual

/-- `convert_canvas_equation_images` on a single node. -/
def replaceEqImgN : HNode → HNode
  | .text s => .text s
  | .elem t a cs =>
      if tagClassMatch "img" "equation_image" t a &&
          !((a.lookup "data-equation-content").getD "").isEmpty then
        .elem "span" [("class", "math inline")]
          [.text ("\\(" ++ (a.lookup "data-equation-content").getD "" ++ "\\)")]
      else .elem t a (replaceEqImgL cs)

/-- `convert_canvas_equation_images`, tree part: replace every
`<img class="equation_image" data-equation-content="expr">` having a
non-empty expression with `<span class="math inline">\(expr\)</span>`. -/
def replaceEqImgL : List HNode → List HNode
  | [] => []
  | n :: ns => replaceEqImgN n :: replaceEqImgL ns

end

/-- `convert_canvas_equation_images` from `src/core/latex_converter.py`:
parse, replace the equation images, re-serialise. -/
def convert_canvas_equation_images (html : String) : String :=
  serializeL (replaceEqImgL (parseHtml html))

/-- `sanitize_student_answer` from `src/core/latex_converter.py`: empty for
blank input, else the equation-image pass followed by the `LaTeX:` marker
pass. -/
def sanitize_student_answer (answer_html : String) : String :=
  if !nonBlank answer_html then ""
  else convert_latex_in_html (convert_canvas_equation_images answer_html)

/-! ## HTML generator (`src/core/html_generator.py`) -/

/-- `sanitize_filename`: drop characters outside `[\w\s-]` (ASCII), then
replace spaces by underscores. -/
def sanitize_filename (name : String) : String :=
  String.mk
    ((name.toList.filter (fun c => c.isAlphanum || c = '_' || isPySpace c || c = '-')).map
      (fun c => if c = ' ' then '_' else c))

/-- `hide_other_variants` on the HTML string. -/
def hide_other_variants (html : String) (variantToShow : Nat) : String :=
  serializeL (hideTree (parseHtml html) variantToShow)

/-- The subpart letters supported by `insert_student_answers`. -/
def partLetters : List String := ["a", "b", "c", "d", "e", "f"]

/-- `insert_student_answers`: with `num_parts = some n` process the first
`n` letters, with `none` only the keys of the answers dict; each processed
letter's `{{PART_X}}` placeholder is replaced by the sanitized answer when
present and non-blank, else by the no-answer marker. -/
def insert_student_answers (html : String) (answers : List (String × String))
    (numParts : Option Nat) : String :=
  let parts := match numParts with
    | some n => partLetters.take n
    | none => answers.map Prod.fst
  parts.foldl
    (fun h letter =>
      let placeholder := "\x7b\x7bPART_" ++ upperStr letter ++ "\x7d\x7d"
      match answers.lookup letter with
      | some ans =>
          if nonBlank ans then pyReplace h placeholder (sanitize_student_answer ans)
          else pyReplace h placeholder "<p><em>(No answer provided)</em></p>"
      | none => pyReplace h placeholder "<p><em>(No answer provided)</em></p>")
    html

/-- One student as produced by `get_student_data`: name, SIS id, optional
Canvas id (never set by the parser), and per-group records. -/
structure StudentData where
  name : String
  sisid : Option String
  canvasId : Option String
  groups : List (String × GroupRec)

/-- The student-info banner div built by `generate_student_html`
(`soup.new_tag` with class/style attributes, heading and id lines). -/
def studentInfoDiv (sd : StudentData) : HNode :=
  .elem "div"
    [("class", "student-info"),
     ("style", "background: #e3f2fd; padding: 1em; margin-bottom: 2em; border-radius: 5px;")]
    [.elem "h2" [("style", "margin-top: 0;")] [.text ("Student: " ++ sd.name)],
     .elem "p" [("style", "margin: 0;")] [.text ("SISID: " ++ sd.sisid.getD "N/A")],
     .elem "p" [("style", "margin: 0;")] [.text ("Canvas ID: " ++ sd.canvasId.getD "N/A")]]

/-- `generate_student_html`: hide the other variants, insert the answers,
prepend the identity banner as first child of `<body>` (when a body is
found), and re-serialise.  The `page_break_mode` parameter is accepted and,
as in the source, unused; the group record is looked up under `group_id`
(a missing key would raise in Python; callers supply it). -/
def generate_student_html (templateHtml : String) (sd : StudentData) (groupId : String)
    (pageBreakMode : String := "same-page") (numParts : Option Nat := none) : String :=
  let _ := pageBreakMode
  let grp := (sd.groups.lookup groupId).getD ⟨1, "", []⟩
  let html1 := hide_other_variants templateHtml grp.variant
  let html2 := insert_student_answers html1 grp.answers numParts
  let doc := parseHtml html2
  match modifyBodyL (fun cs => studentInfoDiv sd :: cs) doc with
  | some d => serializeL d
  | none => serializeL doc

/-! ## Orchestrator output paths (`src/core/orchestrator.py`) -/

/-- The directory-name mangling of the group's display name:
`group_name.lower().replace(' ', '_')`. -/
def mangledGroupName (g : GroupConfig) : String :=
  String.mk ((lowerStr g.name).toList.map (fun c => if c = ' ' then '_' else c))

/-- The per-group output directory stem
`f"output/quiz{quiz_id}/{group_id}_{group_name.lower().replace(' ', '_')}"`. -/
def groupBaseDir (quizId : Nat) (g : GroupConfig) : String :=
  "output/quiz" ++ toString quizId ++ "/" ++ g.id ++ "_" ++ mangledGroupName g

/-- The HTML output path built in `process_quiz`:
`{base_dir}/html/{group_id}v{variant}_nf_{safe_name}.html`. -/
def htmlOutputPath (quizId : Nat) (g : GroupConfig) (variant : Nat) (studentName : String) :
    String :=
  groupBaseDir quizId g ++ "/html/" ++ g.id ++ "v" ++ toString variant ++ "_nf_"
    ++ sanitize_filename studentName ++ ".html"

/-! ## Auxiliary predicates and concrete test data used by the theorems -/

/-- The candidate test applied to one `(tag, column)` pair by
`_find_student_variant`: the tag resolves to the requested group and the
status cell two columns right is in range, present and not a sentinel. -/
def variantCandidate (groups : List GroupConfig) (row : Row) (groupId : String)
    (p : String × Nat) : Bool :=
  (match map_tag_to_group groups p.1 with
   | some (gid, _) => gid == groupId
   | none => false)
  && decide (p.2 + 2 < row.length) && statusOk (row.getD (p.2 + 2) none)

/-- No markup-special characters: on such text, parsing yields a single
text node and `minimal`-formatter serialisation is the identity. -/
def noMarkupChars (y : String) : Bool :=
  y.toList.all (fun c => !(c == '<' || c == '&' || c == '>'))

/-- A two-variant, two-subpart assembled template (the document shape
produced by `rubric_converter.convert_rubric_to_templates`: variant
containers are `div.question-version[data-version]`, one `{{PART_X}}`
placeholder per subpart). -/
def tmplTwoVariants : String :=
  "<html><head><style>.x\x7b\x7d</style></head><body><div class=\"question-version\" data-version=\"1\"><p>Q1 v1</p><p>\x7b\x7bPART_A\x7d\x7d</p><p>\x7b\x7bPART_B\x7d\x7d</p></div><div class=\"question-version\" data-version=\"2\"><p>Q1 v2</p><p>\x7b\x7bPART_A\x7d\x7d</p><p>\x7b\x7bPART_B\x7d\x7d</p></div></body></html>"

/-- A student who received variant 2 of group `q1` and answered only
subpart "a". -/
def alice : StudentData :=
  { name := "Alice Smith", sisid := some "900123", canvasId := none,
    groups := [("q1", ⟨2, "1.2", [("a", "<p>6</p>")]⟩)] }

/-- A variant container literal. -/
def qvDiv (v : Nat) (content : String) : HNode :=
  .elem "div" [("class", "question-version"), ("data-version", toString v)]
    [.text content]

/-- A two-variant document tree with a body. -/
def docTwoVariants : List HNode :=
  [.elem "html" [] [.elem "body" [] [qvDiv 1 "Q v1", qvDiv 2 "Q v2"]]]

/-- A document tree without any variant container. -/
def docNoQV : List HNode :=
  [.elem "html" [] [.elem "body" [] [.text "hi"]]]

/-- The expected result of hiding variant 1 in `docTwoVariants`: the kept
container re-appended as last (here: only) child of the body. -/
def docHiddenOne : List HNode :=
  [.elem "html" [] [.elem "body" [] [qvDiv 1 "Q v1"]]]

/-- A 12-variant group configuration with tags `1.1 … 1.12`
(the §8 example of the spec). -/
def g12 : GroupConfig :=
  ⟨"q1", "Network Flow", (List.range 12).map (fun i => "1." ++ toString (i + 1)), 2⟩

/-- Tagged columns for `g12`, the tag of variant `i+1` at column `3*i`. -/
def vcols12 : List (String × Nat) :=
  (List.range 12).map (fun i => ("1." ++ toString (i + 1), 3 * i))

/-- A CSV row whose status cells read "Not Shown" for variants 1–8 and
10–12 and "Complete" for variant 9. -/
def row12 : Row :=
  ((List.range 12).map (fun i =>
    [some (if i = 8 then "<p>6</p>" else "x"), none,
     some (if i = 8 then "Complete" else "Not Shown")])).flatten

/-- A two-variant group used for the scan-order counterexample. -/
def gOrder : GroupConfig := ⟨"q1", "Network Flow", ["1.1", "1.2"], 2⟩

/-- Tagged columns for `gOrder` as discovered from a CSV whose `1.2` column
precedes its `1.1` column. -/
def vcolsOrder : List (String × Nat) := [("1.2", 3), ("1.1", 0)]

/-- A row in which both variants carry a "Complete" status. -/
def rowOrder : Row :=
  [some "a1", none, some "Complete", some "a2", none, some "Complete"]

/-- The group configuration used in the output-path examples. -/
def gNF : GroupConfig := ⟨"q1", "Network Flow", ["1.1", "1.2"], 2⟩

/-- A one-variant, one-subpart template. -/
def tmplOneVariant : String :=
  "<body><div class=\"question-version\" data-version=\"1\">\x7b\x7bPART_A\x7d\x7d</div></body>"

/-- A student who received variant 1 and answered subpart "a". -/
def bob : StudentData :=
  { name := "Bob", sisid := none, canvasId := none,
    groups := [("q1", ⟨1, "1.1", [("a", "y")]⟩)] }

/-- One application of the Answer Binder, exactly as the orchestrator
invokes it. -/
def boundOnce : String := generate_student_html tmplOneVariant bob "q1" "same-page" none

/-- The Answer Binder re-applied to its own output with the same record. -/
def boundTwice : String := generate_student_html boundOnce bob "q1" "same-page" none

/-! ## Shared lemmas about the document operations -/

theorem findAllQV_append : ∀ l1 l2 : List HNode, findAllQV (l1 ++ l2) = findAllQV l1 ++ findAllQV l2
  | [], l2 => by simp [findAllQV]
  | n :: ns, l2 => by simp [findAllQV, findAllQV_append ns l2]

theorem removeQVL_append : ∀ l1 l2 : List HNode, removeQVL (l1 ++ l2) = removeQVL l1 ++ removeQVL l2
  | [], l2 => by simp [removeQVL]
  | n :: ns, l2 => by simp [removeQVL, removeQVL_append ns l2]

mutual

theorem findAllQV_removeQVN : ∀ n : HNode, findAllQV (removeQVN n) = []
  | .text s => by simp [removeQVN, findAllQV, findAllQVN]
  | .elem t a cs => by
      cases hq : isQV t a
      · simp [removeQVN, hq, findAllQV, findAllQVN, findAllQV_removeQVL cs]
      · simp [removeQVN, hq, findAllQV]

theorem findAllQV_removeQVL : ∀ l : List HNode, findAllQV (removeQVL l) = []
  | [] => by simp [removeQVL, findAllQV]
  | n :: ns => by
      simp [removeQVL, findAllQV_append, findAllQV_removeQVN n, findAllQV_removeQVL ns]

end

mutual

theorem removeQVN_eq_self : ∀ n : HNode, findAllQVN n = [] → removeQVN n = [n]
  | .text s, _ => by simp [removeQVN]
  | .elem t a cs, h => by
      have h' : isQV t a = false ∧ findAllQV cs = [] := by simpa [findAllQVN] using h
      simp [removeQVN, h'.1, removeQVL_eq_self cs h'.2]

theorem removeQVL_eq_self : ∀ l : List HNode, findAllQV l = [] → removeQVL l = l
  | [], _ => rfl
  | n :: ns, h => by
      rcases List.append_eq_nil.mp (by simpa [findAllQV] using h) with ⟨h1, h2⟩
      simp [removeQVL, removeQVN_eq_self n h1, removeQVL_eq_self ns h2]

end

theorem removeQVL_idem (l : List HNode) : removeQVL (removeQVL l) = removeQVL l :=
  removeQVL_eq_self _ (findAllQV_removeQVL l)

mutual

theorem isQVNode_of_mem_findAllQVN : ∀ (n k : HNode), k ∈ findAllQVN n → isQVNode k = true
  | .text _, k, h => by simp [findAllQVN] at h
  | .elem t a cs, k, h => by
      rcases (by simpa [findAllQVN] using h :
          (isQV t a = true ∧ k = HNode.elem t a cs) ∨ k ∈ findAllQV cs) with ⟨hq, hk⟩ | h2
      · subst hk; simpa [isQVNode] using hq
      · exact isQVNode_of_mem_findAllQV cs k h2

theorem isQVNode_of_mem_findAllQV : ∀ (l : List HNode) (k : HNode), k ∈ findAllQV l → isQVNode k = true
  | [], k, h => by simp [findAllQV] at h
  | n :: ns, k, h => by
      rcases List.mem_append.mp (by simpa [findAllQV] using h) with h1 | h2
      · exact isQVNode_of_mem_findAllQVN n k h1
      · exact isQVNode_of_mem_findAllQV ns k h2

end

theorem isQV_of_body_tag (t : String) (a : List (String × String)) (h : (t == "body") = true) :
    isQV t a = false := by
  have ht : t = "body" := by simpa using h
  subst ht
  simp [isQV, tagClassMatch]

theorem getVersion_stripInner (k : HNode) : getVersion (stripInner k) = getVersion k := by
  cases k <;> rfl

theorem stripInner_idem (k : HNode) : stripInner (stripInner k) = stripInner k := by
  cases k with
  | text s => rfl
  | elem t a cs => simp [stripInner, removeQVL_idem]

theorem isQVNode_stripInner (k : HNode) : isQVNode (stripInner k) = isQVNode k := by
  cases k <;> rfl

theorem findAllQVN_stripInner (k : HNode) (hk : isQVNode k = true) :
    findAllQVN (stripInner k) = [stripInner k] := by
  cases k with
  | text s => simp [isQVNode] at hk
  | elem t a cs =>
      have hq : isQV t a = true := by simpa [isQVNode] using hk
      simp [stripInner, findAllQVN, hq, findAllQV_removeQVL]

mutual

theorem findAllQV_modifyN (k : HNode) :
    ∀ (n n' : HNode), modifyBodyN (fun cs => cs ++ [k]) n = some n' →
      findAllQVN n = [] → findAllQVN n' = findAllQVN k
  | .text s, n', h, _ => by simp [modifyBodyN] at h
  | .elem t a cs, n', h, hnil => by
      have h' : isQV t a = false ∧ findAllQV cs = [] := by simpa [findAllQVN] using hnil
      cases hb : (t == "body") with
      | true =>
          have hn' : n' = HNode.elem t a (cs ++ [k]) := by
            have := h
            simp [modifyBodyN, hb] at this
            exact this.symm
          subst hn'
          simp [findAllQVN, h'.1, findAllQV_append, h'.2, findAllQV]
      | false =>
          cases hm : modifyBodyL (fun cs => cs ++ [k]) cs with
          | none => simp [modifyBodyN, hb, hm] at h
          | some cs' =>
              have hn' : n' = HNode.elem t a cs' := by
                have := h
                simp [modifyBodyN, hb, hm] at this
                exact this.symm
              subst hn'
              simp [findAllQVN, h'.1, findAllQV_modifyL k cs cs' hm h'.2]

theorem findAllQV_modifyL (k : HNode) :
    ∀ (l d : List HNode), modifyBodyL (fun cs => cs ++ [k]) l = some d →
      findAllQV l = [] → findAllQV d = findAllQVN k
  | [], d, h, _ => by simp [modifyBodyL] at h
  | n :: ns, d, h, hnil => by
      have h' : findAllQVN n = [] ∧ findAllQV ns = [] := by
        simpa [findAllQV, List.append_eq_nil] using hnil
      cases hm : modifyBodyN (fun cs => cs ++ [k]) n with
      | some n' =>
          have hd : d = n' :: ns := by
            have := h
            simp [modifyBodyL, hm] at this
            exact this.symm
          subst hd
          simp [findAllQV, findAllQV_modifyN k n n' hm h'.1, h'.2]
      | none =>
          cases hms : modifyBodyL (fun cs => cs ++ [k]) ns with
          | none => simp [modifyBodyL, hm, hms] at h
          | some d' =>
              have hd : d = n :: d' := by
                have := h
                simp [modifyBodyL, hm, hms] at this
                exact this.symm
              subst hd
              simp [findAllQV, h'.1, findAllQV_modifyL k ns d' hms h'.2]

end

theorem removeQVN_of_isQVNode (k : HNode) (hk : isQVNode k = true) : removeQVN k = [] := by
  cases k with
  | text s => simp [isQVNode] at hk
  | elem t a cs => simp [removeQVN, show isQV t a = true from hk]

mutual

theorem removeQV_modifyN (k : HNode) (hk : isQVNode k = true) :
    ∀ (n n' : HNode), modifyBodyN (fun cs => cs ++ [k]) n = some n' →
      removeQVN n' = removeQVN n
  | .text s, n', h => by simp [modifyBodyN] at h
  | .elem t a cs, n', h => by
      have hknil : removeQVN k = [] := removeQVN_of_isQVNode k hk
      cases hb : (t == "body") with
      | true =>
          have hn' : n' = HNode.elem t a (cs ++ [k]) := by
            have := h
            simp [modifyBodyN, hb] at this
            exact this.symm
          subst hn'
          have hq : isQV t a = false := isQV_of_body_tag t a hb
          simp [removeQVN, hq, removeQVL_append, removeQVL, hknil]
      | false =>
          cases hm : modifyBodyL (fun cs => cs ++ [k]) cs with
          | none => simp [modifyBodyN, hb, hm] at h
          | some cs' =>
              have hn' : n' = HNode.elem t a cs' := by
                have := h
                simp [modifyBodyN, hb, hm] at this
                exact this.symm
              subst hn'
              simp [removeQVN, removeQV_modifyL k hk cs cs' hm]

theorem removeQV_modifyL (k : HNode) (hk : isQVNode k = true) :
    ∀ (l d : List HNode), modifyBodyL (fun cs => cs ++ [k]) l = some d →
      removeQVL d = removeQVL l
  | [], d, h => by simp [modifyBodyL] at h
  | n :: ns, d, h => by
      cases hm : modifyBodyN (fun cs => cs ++ [k]) n with
      | some n' =>
          have hd : d = n' :: ns := by
            have := h
            simp [modifyBodyL, hm] at this
            exact this.symm
          subst hd
          simp [removeQVL, removeQV_modifyN k hk n n' hm]
      | none =>
          cases hms : modifyBodyL (fun cs => cs ++ [k]) ns with
          | none => simp [modifyBodyL, hm, hms] at h
          | some d' =>
              have hd : d = n :: d' := by
                have := h
                simp [modifyBodyL, hm, hms] at this
                exact this.symm
              subst hd
              simp [removeQVL, removeQV_modifyL k hk ns d' hms]

end

mutual

theorem modifyN_none_bodyChildrenN (f : List HNode → List HNode) :
    ∀ n : HNode, modifyBodyN f n = none → bodyChildrenN n = none
  | .text s, _ => by simp [bodyChildrenN]
  | .elem t a cs, h => by
      cases hb : (t == "body") with
      | true => simp [modifyBodyN, hb] at h
      | false =>
          cases hm : modifyBodyL f cs with
          | some cs' => simp [modifyBodyN, hb, hm] at h
          | none => simp [bodyChildrenN, hb, modifyL_none_bodyChildren f cs hm]

theorem modifyL_none_bodyChildren (f : List HNode → List HNode) :
    ∀ l : List HNode, modifyBodyL f l = none → bodyChildren l = none
  | [], _ => by simp [bodyChildren]
  | n :: ns, h => by
      cases hm : modifyBodyN f n with
      | some n' => simp [modifyBodyL, hm] at h
      | none =>
          cases hms : modifyBodyL f ns with
          | some d' => simp [modifyBodyL, hm, hms] at h
          | none =>
              simp [bodyChildren, modifyN_none_bodyChildrenN f n hm,
                modifyL_none_bodyChildren f ns hms]

end

mutual

theorem bodyChildren_modifyN (f : List HNode → List HNode) :
    ∀ (n n' : HNode), modifyBodyN f n = some n' →
      ∃ cs0, bodyChildrenN n = some cs0 ∧ bodyChildrenN n' = some (f cs0)
  | .text s, n', h => by simp [modifyBodyN] at h
  | .elem t a cs, n', h => by
      cases hb : (t == "body") with
      | true =>
          have hn' : n' = HNode.elem t a (f cs) := by
            have := h
            simp [modifyBodyN, hb] at this
            exact this.symm
          subst hn'
          exact ⟨cs, by simp [bodyChildrenN, hb], by simp [bodyChildrenN, hb]⟩
      | false =>
          cases hm : modifyBodyL f cs with
          | none => simp [modifyBodyN, hb, hm] at h
          | some cs' =>
              have hn' : n' = HNode.elem t a cs' := by
                have := h
                simp [modifyBodyN, hb, hm] at this
                exact this.symm
              subst hn'
              obtain ⟨cs0, h1, h2⟩ := bodyChildren_modifyL f cs cs' hm
              exact ⟨cs0, by simp [bodyChildrenN, hb, h1], by simp [bodyChildrenN, hb, h2]⟩

theorem bodyChildren_modifyL (f : List HNode → List HNode) :
    ∀ (l d : List HNode), modifyBodyL f l = some d →
      ∃ cs0, bodyChildren l = some cs0 ∧ bodyChildren d = some (f cs0)
  | [], d, h => by simp [modifyBodyL] at h
  | n :: ns, d, h => by
      cases hm : modifyBodyN f n with
      | some n' =>
          have hd : d = n' :: ns := by
            have := h
            simp [modifyBodyL, hm] at this
            exact this.symm
          subst hd
          obtain ⟨cs0, h1, h2⟩ := bodyChildren_modifyN f n n' hm
          exact ⟨cs0, by simp [bodyChildren, h1], by simp [bodyChildren, h2]⟩
      | none =>
          cases hms : modifyBodyL f ns with
          | none => simp [modifyBodyL, hm, hms] at h
          | some d' =>
              have hd : d = n :: d' := by
                have := h
                simp [modifyBodyL, hm, hms] at this
                exact this.symm
              subst hd
              obtain ⟨cs0, h1, h2⟩ := bodyChildren_modifyL f ns d' hms
              refine ⟨cs0, ?_, ?_⟩
              · simp [bodyChildren, modifyN_none_bodyChildrenN f n hm, h1]
              · simp [bodyChildren, modifyN_none_bodyChildrenN f n hm, h2]

end

/-! ## The claims -/

/-- **C2.**  For every assembled template document containing a variant
container whose `data-version` equals the student's recorded variant index
(the container located by the binder), and with a `<body>` surviving the
extraction, the Answer Binder's variant-selection step leaves exactly one
variant container in the output document, and its `data-version` equals the
recorded index. -/
theorem C2_binding_keeps_exactly_recorded_variant (doc : List HNode) (v : Nat) (k : HNode)
    (hfind : (findAllQV doc).find? (fun n => getVersion n == toString v) = some k)
    (hbody : (modifyBodyL (fun cs => cs ++ [stripInner k]) (removeQVL doc)).isSome = true) :
    findAllQV (hideTree doc v) = [stripInner k] ∧ getVersion (stripInner k) = toString v := by
  obtain ⟨d, hd⟩ := Option.isSome_iff_exists.mp hbody
  have hk : isQVNode k = true :=
    isQVNode_of_mem_findAllQV doc k (List.mem_of_find?_eq_some hfind)
  have hver : getVersion k = toString v := by simpa using List.find?_some hfind
  have hhide : hideTree doc v = d := by simp [hideTree, hfind, hd]
  rw [hhide]
  constructor
  · rw [findAllQV_modifyL (stripInner k) _ d hd (findAllQV_removeQVL doc),
      findAllQVN_stripInner k hk]
  · rw [getVersion_stripInner, hver]

/-- Witness for C2 at a concrete two-variant document and variant 2. -/
theorem C2_witness :
    findAllQV (hideTree docTwoVariants 2) = [stripInner (qvDiv 2 "Q v2")] ∧
    getVersion (stripInner (qvDiv 2 "Q v2")) = toString 2 :=
  C2_binding_keeps_exactly_recorded_variant docTwoVariants 2 (qvDiv 2 "Q v2") (by rfl) (by rfl)

/-- **C10.**  Frame behaviour of `hide_other_variants` on the parsed
document: (a) a document without variant containers is returned unchanged;
(b) when the binder finds a container matching `str(v)` and a `<body>`
exists outside the containers, the result is exactly the extraction result
with that container re-appended as the **last** child of the body; (c)
when no container matches, no variant container remains at all. -/
theorem C10_hide_frame (doc : List HNode) (v : Nat) :
    (findAllQV doc = [] → hideTree doc v = doc) ∧
    (∀ k d, (findAllQV doc).find? (fun n => getVersion n == toString v) = some k →
      modifyBodyL (fun cs => cs ++ [stripInner k]) (removeQVL doc) = some d →
      hideTree doc v = d ∧
      ∃ cs0, bodyChildren (removeQVL doc) = some cs0 ∧
        bodyChildren (hideTree doc v) = some (cs0 ++ [stripInner k])) ∧
    ((findAllQV doc).find? (fun n => getVersion n == toString v) = none →
      findAllQV (hideTree doc v) = []) := by
  refine ⟨?_, ?_, ?_⟩
  · intro hnil
    have hf : (findAllQV doc).find? (fun n => getVersion n == toString v) = none := by
      simp [hnil]
    simp [hideTree, hf, removeQVL_eq_self doc hnil]
  · intro k d hfind hd
    have hhide : hideTree doc v = d := by simp [hideTree, hfind, hd]
    refine ⟨hhide, ?_⟩
    obtain ⟨cs0, h1, h2⟩ := bodyChildren_modifyL _ _ d hd
    exact ⟨cs0, h1, by rw [hhide]; exact h2⟩
  · intro hnone
    have hhide : hideTree doc v = removeQVL doc := by simp [hideTree, hnone]
    rw [hhide]
    exact findAllQV_removeQVL doc

/-- Witness for C10: the three frame statements at concrete documents. -/
theorem C10_witness :
    hideTree docNoQV 1 = docNoQV ∧
    hideTree docTwoVariants 1 = docHiddenOne ∧
    findAllQV (hideTree docTwoVariants 5) = [] :=
  ⟨(C10_hide_frame docNoQV 1).1 rfl,
   ((C10_hide_frame docTwoVariants 1).2.1 (qvDiv 1 "Q v1") docHiddenOne rfl rfl).1,
   (C10_hide_frame docTwoVariants 5).2.2 rfl⟩

/-- **C7 (amended).**  The variant-selection step of the binder is
idempotent at the document level: hiding with the same index twice equals
hiding once.  (The full binder is *not* idempotent — see the
counterexample — because each application prepends another identity
banner.) -/
theorem C7_amended_hide_idempotent (doc : List HNode) (v : Nat) :
    hideTree (hideTree doc v) v = hideTree doc v := by
  cases hf : (findAllQV doc).find? (fun n => getVersion n == toString v) with
  | none =>
      have h1 : hideTree doc v = removeQVL doc := by simp [hideTree, hf]
      rw [h1]
      have h2 : (findAllQV (removeQVL doc)).find? (fun n => getVersion n == toString v)
          = none := by simp [findAllQV_removeQVL]
      simp [hideTree, h2, removeQVL_idem]
  | some k =>
      have hk : isQVNode k = true :=
        isQVNode_of_mem_findAllQV doc k (List.mem_of_find?_eq_some hf)
      have hks : isQVNode (stripInner k) = true := by rw [isQVNode_stripInner]; exact hk
      have hpred : (getVersion k == toString v) = true := by
        simpa using List.find?_some hf
      cases hm : modifyBodyL (fun cs => cs ++ [stripInner k]) (removeQVL doc) with
      | none =>
          have h1 : hideTree doc v = removeQVL doc := by simp [hideTree, hf, hm]
          rw [h1]
          have h2 : (findAllQV (removeQVL doc)).find? (fun n => getVersion n == toString v)
              = none := by simp [findAllQV_removeQVL]
          simp [hideTree, h2, removeQVL_idem]
      | some d =>
          have h1 : hideTree doc v = d := by simp [hideTree, hf, hm]
          rw [h1]
          have hfAll : findAllQV d = [stripInner k] := by
            rw [findAllQV_modifyL (stripInner k) _ d hm (findAllQV_removeQVL doc),
              findAllQVN_stripInner k hk]
          have hfind2 : (findAllQV d).find? (fun n => getVersion n == toString v)
              = some (stripInner k) := by
            rw [hfAll]
            simp [List.find?, getVersion_stripInner, hpred]
          have hrm : removeQVL d = removeQVL doc := by
            rw [removeQV_modifyL (stripInner k) hks _ d hm, removeQVL_idem]
          have hm2 : modifyBodyL (fun cs => cs ++ [stripInner (stripInner k)]) (removeQVL d)
              = some d := by
            rw [stripInner_idem, hrm]
            exact hm
          simp [hideTree, hfind2, hm2]

theorem mkToList (y : String) : String.mk y.toList = y := by
  cases y
  rfl

theorem tokenize_nil (fuel : Nat) : tokenize fuel [] = [] := by
  cases fuel <;> rfl

theorem tokenize_no_lt (fuel : Nat) (c : Char) (rest : List Char)
    (h : ∀ x ∈ c :: rest, x ≠ '<') :
    tokenize (fuel + 1) (c :: rest) = [.textTok (String.mk (c :: rest))] := by
  have hc : ¬(c = '<') := h c (by simp)
  have ht : rest.takeWhile (fun x => !decide (x = '<')) = rest :=
    List.takeWhile_eq_self_iff.mpr (by intro x hx; simpa using h x (by simp [hx]))
  have hd : rest.dropWhile (fun x => !decide (x = '<')) = [] :=
    List.dropWhile_eq_nil_iff.mpr (by intro x hx; simpa using h x (by simp [hx]))
  simp [tokenize, hc, ht, hd, tokenize_nil]

theorem parseHtml_no_markup (y : String) (hnm : noMarkupChars y = true) (hy : y ≠ "") :
    parseHtml y = [.text y] := by
  have hall : ∀ x ∈ y.toList, x ≠ '<' := by
    intro x hx
    have hx' := List.all_eq_true.mp hnm x hx
    simp only [Bool.not_eq_true', Bool.or_eq_false_iff, beq_eq_false_iff_ne, ne_eq] at hx'
    exact hx'.1.1
  cases hl : y.toList with
  | nil =>
      exact absurd (by rw [← mkToList y, hl]) hy
  | cons c rest =>
      have hall' : ∀ x ∈ c :: rest, x ≠ '<' := fun x hx => hall x (by rw [hl]; exact hx)
      simp only [parseHtml]
      rw [hl, List.length_cons, tokenize_no_lt (rest.length + 1) c rest hall']
      simp [buildNodes]
      rw [← hl, mkToList]

theorem escapeTextChar_id (c : Char)
    (h : (c == '<' || c == '&' || c == '>') = false) : escapeTextChar c = [c] := by
  simp only [Bool.or_eq_false_iff, beq_eq_false_iff_ne, ne_eq] at h
  simp [escapeTextChar, h.1.1, h.1.2, h.2]

theorem escapeTextL_id :
    ∀ cs : List Char, (∀ c ∈ cs, (c == '<' || c == '&' || c == '>') = false) →
      escapeTextL cs = cs
  | [], _ => rfl
  | c :: rest, h => by
      rw [escapeTextL, escapeTextChar_id c (h c (by simp)),
        escapeTextL_id rest (fun x hx => h x (by simp [hx]))]
      rfl

theorem convert_latex_no_marker (y : String) (h : findMarkers y.toList 0 = []) :
    convert_latex_in_html y = y := by
  unfold convert_latex_in_html
  rw [h]
  simp [convertGo, mkToList]

/-- **C5 (amended).**  The Sanitizer is not idempotent on all inputs (see
the counterexample), but it fixes — hence is idempotent at — every
non-blank input free of markup-special characters and of `LaTeX:` markers;
re-sanitizing changes content only when the first pass leaves a marker or
markup in its output. -/
theorem C5_amended_sanitize_fixed_point (y : String)
    (hnm : noMarkupChars y = true)
    (hmk : findMarkers y.toList 0 = [])
    (hnb : nonBlank y = true) :
    sanitize_student_answer y = y ∧
    sanitize_student_answer (sanitize_student_answer y) = sanitize_student_answer y := by
  have hy : y ≠ "" := by
    intro h
    rw [h] at hnb
    simp [nonBlank, stripWs, List.dropWhile] at hnb
  have himg : convert_canvas_equation_images y = y := by
    unfold convert_canvas_equation_images
    rw [parseHtml_no_markup y hnm hy]
    simp only [replaceEqImgL, replaceEqImgN, serializeL, serializeN]
    rw [escapeTextL_id y.toList
      (fun c hc => by simpa using List.all_eq_true.mp hnm c hc), mkToList]
    simp
  have hfix : sanitize_student_answer y = y := by
    unfold sanitize_student_answer
    rw [hnb]
    simp only [Bool.not_true, Bool.false_eq_true, if_false]
    rw [himg, convert_latex_no_marker y hmk]
  exact ⟨hfix, by rw [hfix]; exact hfix⟩

/-- Witness for C5 (amended) at the already-sanitized fragment `\(x\)`. -/
theorem C5_witness :
    sanitize_student_answer "\\(x\\)" = "\\(x\\)" ∧
    sanitize_student_answer (sanitize_student_answer "\\(x\\)") =
      sanitize_student_answer "\\(x\\)" :=
  C5_amended_sanitize_fixed_point "\\(x\\)" (by decide) (by decide) (by decide)

theorem lookup_append {β : Type} (x : String) (l1 l2 : List (String × β)) :
    (l1 ++ l2).lookup x =
      (match l1.lookup x with
       | some v => some v
       | none => l2.lookup x) := by
  induction l1 with
  | nil => rfl
  | cons p rest ih =>
      obtain ⟨k, v⟩ := p
      cases hk : (x == k) with
      | true => simp [List.lookup, hk]
      | false => simp [List.lookup, hk, ih]

theorem option_match_id {α : Type} (o : Option α) :
    (match o with | some v => some v | none => none) = o := by
  cases o <;> rfl

theorem lookup_partEntry_ne (row : Row) (c : Option Nat) (letter x : String)
    (h : (x == letter) = false) : (partEntry row c letter).lookup x = none := by
  unfold partEntry
  repeat' split
  all_goals first | rfl | simp [List.lookup, h]

theorem lookup_partEntry_self (row : Row) (c : Option Nat) (letter : String) :
    (partEntry row c letter).lookup letter = subpartValue row c := by
  unfold partEntry subpartValue
  repeat' split
  all_goals simp_all [List.lookup]

/-- **C4 (amended).**  For *every* supported subpart: the subpart is
recorded in the answers mapping iff its source column is configured and its
cell is present (`pd.notna`) **and** non-blank, in which case the recorded
value is the raw cell content; a present-but-blank cell is omitted from the
mapping exactly like an absent one, and the paired status field is never
consulted by the extraction.  Subpart "a" reads the tagged column, subparts
"b" and "c" read the group's shared columns — each branch of
`_extract_subpart_answers` is characterised below. -/
theorem C4_amended_subpart_recorded_iff_nonblank (vc sc : List (String × Nat)) (row : Row)
    (tag gid : String) :
    (extract_subpart_answers vc sc row tag gid).lookup "a" =
      subpartValue row (vc.lookup tag) ∧
    (extract_subpart_answers vc sc row tag gid).lookup "b" =
      subpartValue row (sc.lookup (gid ++ "_b")) ∧
    (extract_subpart_answers vc sc row tag gid).lookup "c" =
      subpartValue row (sc.lookup (gid ++ "_c")) := by
  refine ⟨?_, ?_, ?_⟩
  · have hb : (partEntry row (sc.lookup (gid ++ "_b")) "b").lookup "a" = none :=
      lookup_partEntry_ne row _ "b" "a" (by decide)
    have hc : (partEntry row (sc.lookup (gid ++ "_c")) "c").lookup "a" = none :=
      lookup_partEntry_ne row _ "c" "a" (by decide)
    unfold extract_subpart_answers
    rw [List.append_assoc, lookup_append, lookup_append, hb, hc, lookup_partEntry_self]
    exact option_match_id _
  · have ha : (partEntry row (vc.lookup tag) "a").lookup "b" = none :=
      lookup_partEntry_ne row _ "a" "b" (by decide)
    have hc : (partEntry row (sc.lookup (gid ++ "_c")) "c").lookup "b" = none :=
      lookup_partEntry_ne row _ "c" "b" (by decide)
    unfold extract_subpart_answers
    rw [List.append_assoc, lookup_append, ha]
    show (partEntry row (sc.lookup (gid ++ "_b")) "b"
        ++ partEntry row (sc.lookup (gid ++ "_c")) "c").lookup "b" = _
    rw [lookup_append, hc, lookup_partEntry_self]
    exact option_match_id _
  · have ha : (partEntry row (vc.lookup tag) "a").lookup "c" = none :=
      lookup_partEntry_ne row _ "a" "c" (by decide)
    have hb : (partEntry row (sc.lookup (gid ++ "_b")) "b").lookup "c" = none :=
      lookup_partEntry_ne row _ "b" "c" (by decide)
    unfold extract_subpart_answers
    rw [List.append_assoc, lookup_append, ha]
    show (partEntry row (sc.lookup (gid ++ "_b")) "b"
        ++ partEntry row (sc.lookup (gid ++ "_c")) "c").lookup "c" = _
    rw [lookup_append, hb, lookup_partEntry_self]

set_option maxHeartbeats 1000000 in
/-- **C6 (amended).**  `_find_student_variant` scans the tagged columns in
the *column order of the export* (the insertion order of the
variant-column dict), not in tag-list order: it returns the first
`(tag, column)` pair that resolves to the requested group and whose status
cell is in range, present, and not a sentinel.  When the export's columns
are ordered like the tag list — as in the spec's §8 example, recorded
here — the two orders agree: the "Not Shown"×8 then "Complete" student of
a 12-tag group is recorded with variant index 9, tag "1.9". -/
theorem C6_amended_column_order_scan :
    (∀ (groups : List GroupConfig) (vcols : List (String × Nat)) (row : Row) (gid : String),
      find_student_variant groups vcols row gid =
        ((vcols.filter (variantCandidate groups row gid)).head?).map Prod.fst) ∧
    studentGroupRecord [g12] vcols12 [] row12 g12 =
      some ⟨9, "1.9", [("a", "<p>6</p>")]⟩ := by
  constructor
  · intro groups vcols row gid
    induction vcols with
    | nil => rfl
    | cons p rest ih =>
        obtain ⟨tag, colIdx⟩ := p
        cases hm : map_tag_to_group groups tag with
        | none => simp [find_student_variant, hm, List.filter, variantCandidate, ih]
        | some pr =>
            obtain ⟨gid', vn⟩ := pr
            by_cases hg : gid' = gid
            · subst hg
              by_cases hlt : colIdx + 2 < row.length
              · cases hst : statusOk row[colIdx + 2] with
                | true =>
                    simp [find_student_variant, hm, hlt, hst, List.filter, variantCandidate]
                | false =>
                    simp [find_student_variant, hm, hlt, hst, List.filter, variantCandidate, ih]
              · simp [find_student_variant, hm, hlt, List.filter, variantCandidate, ih]
            · have hbeq : (gid' == gid) = false := by simpa using hg
              simp [find_student_variant, hm, hg, hbeq, List.filter, variantCandidate, ih]
  · decide

/-- `takeWhile` stops exactly at the first failing element. -/
theorem takeWhile_append_sep (p : Char → Bool) :
    ∀ (xs : List Char) (y : Char) (zs : List Char),
      (∀ a ∈ xs, p a = true) → p y = false →
      (xs ++ y :: zs).takeWhile p = xs
  | [], y, zs, _, hy => by simp [List.takeWhile, hy]
  | x :: xs, y, zs, hx, hy => by
      have hxx : p x = true := hx x (by simp)
      simp only [List.cons_append, List.takeWhile, hxx, List.cons.injEq, true_and]
      exact takeWhile_append_sep p xs y zs (fun a ha => hx a (by simp [ha])) hy

/-- `dropWhile` drops exactly up to the first failing element. -/
theorem dropWhile_append_sep (p : Char → Bool) :
    ∀ (xs : List Char) (y : Char) (zs : List Char),
      (∀ a ∈ xs, p a = true) → p y = false →
      (xs ++ y :: zs).dropWhile p = y :: zs
  | [], y, zs, _, hy => by simp [List.dropWhile, hy]
  | x :: xs, y, zs, hx, hy => by
      have hxx : p x = true := hx x (by simp)
      simp only [List.cons_append, List.dropWhile, hxx]
      exact dropWhile_append_sep p xs y zs (fun a ha => hx a (by simp [ha])) hy

/-- Splitting at the first occurrence of a separator character is
injective: if neither prefix contains the separator, equal concatenations
force equal prefixes and equal suffixes. -/
theorem sep_inj (c : Char) (xs1 xs2 zs1 zs2 : List Char)
    (h1 : ∀ a ∈ xs1, a ≠ c) (h2 : ∀ a ∈ xs2, a ≠ c)
    (heq : xs1 ++ c :: zs1 = xs2 ++ c :: zs2) : xs1 = xs2 ∧ zs1 = zs2 := by
  have ht1 : (xs1 ++ c :: zs1).takeWhile (fun a => !(a == c)) = xs1 :=
    takeWhile_append_sep _ xs1 c zs1 (fun a ha => by simpa using h1 a ha) (by simp)
  have ht2 : (xs2 ++ c :: zs2).takeWhile (fun a => !(a == c)) = xs2 :=
    takeWhile_append_sep _ xs2 c zs2 (fun a ha => by simpa using h2 a ha) (by simp)
  have hd1 : (xs1 ++ c :: zs1).dropWhile (fun a => !(a == c)) = c :: zs1 :=
    dropWhile_append_sep _ xs1 c zs1 (fun a ha => by simpa using h1 a ha) (by simp)
  have hd2 : (xs2 ++ c :: zs2).dropWhile (fun a => !(a == c)) = c :: zs2 :=
    dropWhile_append_sep _ xs2 c zs2 (fun a ha => by simpa using h2 a ha) (by simp)
  constructor
  · rw [← ht1, ← ht2, heq]
  · have h3 : c :: zs1 = c :: zs2 := by rw [← hd1, ← hd2, heq]
    simpa using h3

/-- Decimal digit characters produced by `Nat.digitChar` are digits. -/
theorem digitChar_isDigit (m : Nat) (h : m < 10) : (Nat.digitChar m).isDigit = true := by
  interval_cases m <;> decide

/-- The code of `Nat.digitChar m` for a decimal digit `m`. -/
theorem digitChar_val (m : Nat) (h : m < 10) : (Nat.digitChar m).toNat = 48 + m := by
  interval_cases m <;> decide

/-- `Nat.toDigitsCore` conses onto its accumulator. -/
theorem toDigitsCore_acc :
    ∀ (f n : Nat) (l : List Char),
      Nat.toDigitsCore 10 f n l = Nat.toDigitsCore 10 f n [] ++ l
  | 0, _, _ => rfl
  | f + 1, n, l => by
      simp only [Nat.toDigitsCore]
      by_cases h : n / 10 = 0
      · simp [h]
      · simp only [h, if_neg, ite_false]
        rw [toDigitsCore_acc f (n / 10) (Nat.digitChar (n % 10) :: l),
          toDigitsCore_acc f (n / 10) [Nat.digitChar (n % 10)]]
        simp

/-- Every character emitted by `Nat.toDigitsCore` at base 10 is a digit. -/
theorem toDigitsCore_mem :
    ∀ (f n : Nat) (l : List Char) (c : Char),
      c ∈ Nat.toDigitsCore 10 f n l → c ∈ l ∨ c.isDigit = true
  | 0, _, _, _, h => Or.inl h
  | f + 1, n, l, c, h => by
      simp only [Nat.toDigitsCore] at h
      by_cases hz : n / 10 = 0
      · rw [if_pos hz] at h
        rcases List.mem_cons.mp h with h | h
        · exact Or.inr (h ▸ digitChar_isDigit (n % 10) (Nat.mod_lt n (by decide)))
        · exact Or.inl h
      · rw [if_neg hz] at h
        rcases toDigitsCore_mem f (n / 10) (Nat.digitChar (n % 10) :: l) c h with h | h
        · rcases List.mem_cons.mp h with h | h
          · exact Or.inr (h ▸ digitChar_isDigit (n % 10) (Nat.mod_lt n (by decide)))
          · exact Or.inl h
        · exact Or.inr h

/-- Reading the emitted decimal digits back recovers the number. -/
theorem toDigitsCore_eval :
    ∀ (f n a : Nat), n < 10 ^ f →
      List.foldl (fun acc c => acc * 10 + (c.toNat - 48)) a (Nat.toDigitsCore 10 f n []) =
        a * 10 ^ (Nat.toDigitsCore 10 f n []).length + n
  | 0, n, a, hn => by
      have : n = 0 := by omega
      subst this
      simp [Nat.toDigitsCore]
  | f + 1, n, a, hn => by
      have hm : n % 10 < 10 := Nat.mod_lt n (by decide)
      simp only [Nat.toDigitsCore]
      by_cases hz : n / 10 = 0
      · have hnn : n < 10 := by omega
        have hmod : n % 10 = n := Nat.mod_eq_of_lt hnn
        rw [if_pos hz]
        simp only [List.foldl, List.length_cons, List.length_nil]
        rw [hmod, digitChar_val n hnn, pow_one]
        omega
      · rw [if_neg hz, toDigitsCore_acc]
        have hdiv : n / 10 < 10 ^ f := by
          rw [Nat.div_lt_iff_lt_mul (by decide : 0 < 10)]
          calc n < 10 ^ (f + 1) := hn
            _ = 10 ^ f * 10 := by rw [pow_succ]
        rw [List.foldl_append, toDigitsCore_eval f (n / 10) a hdiv]
        simp only [List.foldl, List.length_append, List.length_cons, List.length_nil]
        rw [digitChar_val (n % 10) hm]
        have : (48 + n % 10) - 48 = n % 10 := by omega
        rw [this, pow_succ]
        have hdm : 10 * (n / 10) + n % 10 = n := Nat.div_add_mod n 10
        ring_nf
        omega

/-- The characters of `toString (v : Nat)` are its decimal digits. -/
theorem toString_nat_data (v : Nat) : (toString v).data = Nat.toDigits 10 v := rfl

/-- Every character of a printed `Nat` is a digit. -/
theorem toString_nat_digits (v : Nat) : ∀ c ∈ (toString v).data, c.isDigit = true := by
  intro c hc
  rw [toString_nat_data] at hc
  rcases toDigitsCore_mem (v + 1) v [] c hc with h | h
  · simp at h
  · exact h

/-- Decimal printing of `Nat` is injective. -/
theorem toString_nat_injective (v1 v2 : Nat) (h : toString v1 = toString v2) : v1 = v2 := by
  have hd : Nat.toDigitsCore 10 (v1 + 1) v1 [] = Nat.toDigitsCore 10 (v2 + 1) v2 [] := by
    have := congrArg String.data h
    rw [toString_nat_data, toString_nat_data] at this
    exact this
  have hb1 : v1 < 10 ^ (v1 + 1) :=
    lt_of_lt_of_le (Nat.lt_two_pow v1)
      (le_trans (Nat.pow_le_pow_left (by decide) v1)
        (Nat.pow_le_pow_right (by decide) (Nat.le_succ v1)))
  have hb2 : v2 < 10 ^ (v2 + 1) :=
    lt_of_lt_of_le (Nat.lt_two_pow v2)
      (le_trans (Nat.pow_le_pow_left (by decide) v2)
        (Nat.pow_le_pow_right (by decide) (Nat.le_succ v2)))
  have e1 := toDigitsCore_eval (v1 + 1) v1 0 hb1
  have e2 := toDigitsCore_eval (v2 + 1) v2 0 hb2
  rw [hd] at e1
  rw [e2] at e1
  simp at e1
  omega

/-- Peeling one equal head element off a list equation. -/
theorem cons_peel {α : Type} (a : α) (l1 l2 : List α) (h : a :: l1 = a :: l2) : l1 = l2 := by
  simpa using h

/-- Structure of the output path at the character level: the quiz prefix,
the `id_name` directory, the `/html/` segment, the `{id}v{variant}_nf_`
filename prefix and the `.html` extension pin down the group-id, variant
and slug fields, provided the group id is underscore-free and the mangled
group name slash-free. -/
theorem pathFieldsInj (p0 q e i1 i2 m1 m2 t1 t2 s1 s2 : List Char)
    (hi1 : ∀ a ∈ i1, a ≠ '_') (hi2 : ∀ a ∈ i2, a ≠ '_')
    (hm1 : ∀ a ∈ m1, a ≠ '/') (hm2 : ∀ a ∈ m2, a ≠ '/')
    (ht1 : ∀ a ∈ t1, a ≠ '_') (ht2 : ∀ a ∈ t2, a ≠ '_')
    (heq : p0 ++ (q ++ ('/' :: (i1 ++ ('_' :: (m1 ++ ('/' :: 'h' :: 't' :: 'm' :: 'l' :: '/' ::
             (i1 ++ ('v' :: (t1 ++ ('_' :: 'n' :: 'f' :: '_' :: (s1 ++ e)))))))))))
         = p0 ++ (q ++ ('/' :: (i2 ++ ('_' :: (m2 ++ ('/' :: 'h' :: 't' :: 'm' :: 'l' :: '/' ::
             (i2 ++ ('v' :: (t2 ++ ('_' :: 'n' :: 'f' :: '_' :: (s2 ++ e)))))))))))) :
    i1 = i2 ∧ t1 = t2 ∧ s1 = s2 := by
  have h1 := List.append_cancel_left heq
  have h2 := List.append_cancel_left h1
  have h3 := cons_peel '/' _ _ h2
  obtain ⟨hii, h4⟩ := sep_inj '_' i1 i2 _ _ hi1 hi2 h3
  obtain ⟨_, h5⟩ := sep_inj '/' m1 m2 _ _ hm1 hm2 h4
  have h6 := cons_peel '/' _ _ (cons_peel 'l' _ _ (cons_peel 'm' _ _
    (cons_peel 't' _ _ (cons_peel 'h' _ _ h5))))
  rw [← hii] at h6
  have h7 := cons_peel 'v' _ _ (List.append_cancel_left h6)
  obtain ⟨htt, h8⟩ := sep_inj '_' t1 t2 _ _ ht1 ht2 h7
  have h9 := cons_peel '_' _ _ (cons_peel 'f' _ _ (cons_peel 'n' _ _ h8))
  exact ⟨hii, htt, List.append_cancel_right h9⟩

/-- **C9 (amended).**  The output path is a deterministic function of
(quiz id, group id, group name, variant index, student name), and it
collides only on the filename slug: for groups whose id contains no
underscore and whose mangled display name contains no slash (as in the
shipped configs, e.g. `q1`/`q2` with names mangled to `network_flow`,
`bipartite_matching`), equal paths force equal group ids, equal variant
indices and equal sanitized name slugs.  So jobs differing in group or in
variant never collide; only distinct student names with the same slug
(see the counterexample) write to the same path. -/
theorem C9_amended_path_collision_characterization (quizId : Nat) (g1 g2 : GroupConfig)
    (v1 v2 : Nat) (n1 n2 : String)
    (hu1 : '_' ∉ g1.id.toList) (hu2 : '_' ∉ g2.id.toList)
    (hs1 : '/' ∉ (mangledGroupName g1).toList) (hs2 : '/' ∉ (mangledGroupName g2).toList)
    (h : htmlOutputPath quizId g1 v1 n1 = htmlOutputPath quizId g2 v2 n2) :
    g1.id = g2.id ∧ v1 = v2 ∧ sanitize_filename n1 = sanitize_filename n2 := by
  have hd := congrArg String.data h
  simp only [htmlOutputPath, groupBaseDir, String.data_append, List.append_assoc] at hd
  have e1 : ∀ X : List Char, "/".data ++ X = '/' :: X := fun _ => rfl
  have e2 : ∀ X : List Char, "_".data ++ X = '_' :: X := fun _ => rfl
  have e3 : ∀ X : List Char, "/html/".data ++ X = '/' :: 'h' :: 't' :: 'm' :: 'l' :: '/' :: X :=
    fun _ => rfl
  have e4 : ∀ X : List Char, "v".data ++ X = 'v' :: X := fun _ => rfl
  have e5 : ∀ X : List Char, "_nf_".data ++ X = '_' :: 'n' :: 'f' :: '_' :: X := fun _ => rfl
  simp only [e1, e2, e3, e4, e5] at hd
  obtain ⟨hi, ht, hs⟩ := pathFieldsInj "output/quiz".data (toString quizId).data ".html".data
    g1.id.data g2.id.data (mangledGroupName g1).data (mangledGroupName g2).data
    (toString v1).data (toString v2).data
    (sanitize_filename n1).data (sanitize_filename n2).data
    (fun a ha hac => hu1 (hac ▸ ha)) (fun a ha hac => hu2 (hac ▸ ha))
    (fun a ha hac => hs1 (hac ▸ ha)) (fun a ha hac => hs2 (hac ▸ ha))
    (fun a ha hac => by
      have hdig := toString_nat_digits v1 a ha
      rw [hac] at hdig
      exact absurd hdig (by decide))
    (fun a ha hac => by
      have hdig := toString_nat_digits v2 a ha
      rw [hac] at hdig
      exact absurd hdig (by decide))
    hd
  exact ⟨String.ext hi, toString_nat_injective v1 v2 (String.ext ht), String.ext hs⟩

/-- Witness for C9 (amended): at the colliding pair of the counterexample
the characterization applies concretely — same group, same variant, equal
slugs for "Alice.Smith" and "AliceSmith". -/
theorem C9_witness :
    gNF.id = gNF.id ∧ 2 = 2 ∧
      sanitize_filename "Alice.Smith" = sanitize_filename "AliceSmith" :=
  C9_amended_path_collision_characterization 5 gNF gNF 2 2 "Alice.Smith" "AliceSmith"
    (by decide) (by decide) (by decide) (by decide) (by decide)

set_option maxRecDepth 100000 in
set_option maxHeartbeats 1000000 in
/-- **C1.**  Evaluation of the pipeline at the failing input: the
orchestrator (`process_quiz`) calls `generate_student_html` *without*
`num_parts`, so for a student whose answers dict lacks subpart "b" the
`{{PART_B}}` placeholder of a two-subpart template is left unresolved in
the bound output; passing `num_parts = 2`, as `html_generator.py`'s own
comment ("pass num_parts to ensure all placeholders are replaced")
intends, resolves it. -/
theorem C1_orchestrator_leaves_placeholder_unresolved :
    containsSub (generate_student_html tmplTwoVariants alice "q1" "same-page" none)
      "\x7b\x7bPART_B\x7d\x7d" = true ∧
    containsSub (generate_student_html tmplTwoVariants alice "q1" "same-page" (some 2))
      "\x7b\x7bPART_B\x7d\x7d" = false := by
  decide

/-- **C3 (counterexample).**  The header `"[1.1] What is the max flow?"` of
the spec's example does **not** yield tag "1.1": `_find_variant_columns`
anchors `re.match(r'^(\d+\.\d+)', …)` at the start of the cell text, and a
leading `[` defeats it, so no column is recorded at all. -/
theorem C3_counterexample_bracketed_header_untagged :
    find_variant_columns ["[1.1] What is the max flow?"] = [] := by
  decide

/-- **C3 (amended).**  A tag is extracted only when the `X.Y` pattern
occurs (unbracketed) at the start of the stripped header text:
`"[1.1] …"` is silently treated as untagged, while `"1.1 What is the max
flow?"` yields tag "1.1" recorded with its column position; a cell with no
such leading tag is silently untagged. -/
theorem C3_amended_leading_tag_extraction :
    extractTag "[1.1] What is the max flow?" = none ∧
    extractTag "1.1 What is the max flow?" = some "1.1" ∧
    find_variant_columns ["Name", "1.1 What is the max flow?", "[2.3] What is a min cut?"]
      = [("1.1", 1)] := by
  decide

/-- **C4 (counterexample).**  A present-but-blank answer cell (status
"Complete") is *not* recorded as an explicit empty string: the extraction
drops it, leaving the answers mapping with no "a" entry at all. -/
theorem C4_counterexample_blank_cell_omitted :
    extract_subpart_answers [("1.1", 0)] [] [some "", none, some "Complete"] "1.1" "q1"
      = [] := by
  decide

set_option maxRecDepth 100000 in
/-- **C5 (counterexample).**  The Sanitizer is not idempotent: on the raw
answer `"LaTeX: LaTeX: a"` the first pass leaves a literal `LaTeX:` marker
inside the produced inline-math span, and a second pass re-wraps it,
changing the output. -/
theorem C5_counterexample_sanitize_not_idempotent :
    sanitize_student_answer (sanitize_student_answer "LaTeX: LaTeX: a") ≠
      sanitize_student_answer "LaTeX: LaTeX: a" := by
  decide

/-- **C6 (counterexample).**  The scan is *not* in tag-list order: with the
`1.2` column preceding the `1.1` column in the export and both statuses
"Complete", the code records tag "1.2", while a tag-list-order scan (the
spec's wording, modelled by `find_student_variant_tag_order`) records
"1.1". -/
theorem C6_counterexample_scan_order :
    find_student_variant [gOrder] vcolsOrder rowOrder "q1" = some "1.2" ∧
    find_student_variant_tag_order [gOrder] vcolsOrder rowOrder "q1" = some "1.1" ∧
    ("1.2" : String) ≠ "1.1" := by
  decide

set_option maxRecDepth 100000 in
set_option maxHeartbeats 1000000 in
/-- **C7 (counterexample).**  The Answer Binder is not idempotent:
re-applying `generate_student_html` (exactly as the orchestrator invokes
it) to its own output with the same record prepends a second
student-identity banner, so the re-bound output is not byte-identical. -/
theorem C7_counterexample_rebinding_duplicates_banner : boundTwice ≠ boundOnce := by
  decide

/-- **C8.**  The spec's §8 marker example: consumption stops before the
stop-word "and", boundary characters inside the balanced `\left(…\right)`
pair do not terminate the expression, and a trailing comma (second
conjunct) is stripped before wrapping in `\(…\)`. -/
theorem C8_latex_marker_example :
    convert_latex_in_html "LaTeX: C_1,C_2,\\left(x\\right),\\ldots,C_n and more text" =
      "\\(C_1,C_2,\\left(x\\right),\\ldots,C_n\\) and more text" ∧
    convert_latex_in_html "LaTeX: C_1,C_2, and more text" =
      "\\(C_1,C_2\\) and more text" := by
  decide

/-- **C9 (counterexample).**  Two render jobs of one run that differ in
student write to the *same* path: "Alice.Smith" and "AliceSmith" sanitize
to the same slug, so with equal group and variant the output paths
coincide. -/
theorem C9_counterexample_colliding_slugs :
    htmlOutputPath 5 gNF 2 "Alice.Smith" = htmlOutputPath 5 gNF 2 "AliceSmith" ∧
    "Alice.Smith" ≠ "AliceSmith" := by
  decide

end Quiz
